import Mathlib

/-
Verification of the reltools DDL parsing and schema validation core
(`src/reltools/parsers/sql_parser.py`, `src/reltools/parsers/ast_builder.py`,
`src/reltools/models/schema.py`, `src/reltools/utils/validators.py`)
against its natural-language specification.

The Python code is shallowly embedded: strings become `String`/`List Char`,
Python dictionaries with possibly-missing keys become structures with
`Option` fields, raised exceptions become `Except String`.  The regular
expressions used by the parser are embedded as deterministic scanners:
every pattern in the source (`PRIMARY\s+KEY\s*\(([^)]+)\)` and friends)
has disjoint follow sets at each quantifier, so Python's leftmost greedy
backtracking search coincides with maximal-munch scanning, which is what
the scanners below implement.  Python `\s`, `str.upper`, `str.lower` and
`re.IGNORECASE` are modelled on the ASCII range, which covers the DDL
inputs this parser handles.
-/

deriving instance DecidableEq for Except

namespace Reltools

/-- ASCII whitespace, the characters matched by the regex class `\s` and by
`str.strip()` on the inputs this parser handles. -/
def isWs (c : Char) : Bool :=
  c = ' ' || c = '\t' || c = '\n' || c = '\r' || c = '\x0b' || c = '\x0c'

/-- characters removed by the Python idiom `.strip('`"[]')`: backtick,
double quote, and square brackets (written via their ASCII codes). -/
def isQuoteCh (c : Char) : Bool :=
  c = Char.ofNat 96 || c = Char.ofNat 34 || c = '[' || c = ']'

/-- strip ASCII whitespace from both ends, as Python `str.strip()`. -/
def pyStripL (cs : List Char) : List Char :=
  ((cs.dropWhile isWs).reverse.dropWhile isWs).reverse

/-- strip quoting and bracketing characters from both ends, as the Python
idiom `.strip('`"[]')` used throughout the parser. -/
def stripQuotesL (cs : List Char) : List Char :=
  ((cs.dropWhile isQuoteCh).reverse.dropWhile isQuoteCh).reverse

/-- uppercase a character sequence, as Python `str.upper()` on ASCII. -/
def upperL (cs : List Char) : List Char := cs.map Char.toUpper

/-- uppercase a string, as Python `str.upper()` on ASCII. -/
def upperStr (s : String) : String := String.mk (upperL s.data)

/-- substring test on character lists: `containsSub cs pat` is true when
`pat` occurs contiguously inside `cs` (used to state the validator's
error-message claims). -/
def isPrefixL : List Char → List Char → Bool
  | [], _ => true
  | _ :: _, [] => false
  | p :: ps, c :: cs => p = c && isPrefixL ps cs

def containsSub : List Char → List Char → Bool
  | cs, pat =>
    if isPrefixL pat cs then true
    else
      match cs with
      | [] => false
      | _ :: t => containsSub t pat

/-! ## The top-level comma splitter (`_split_by_comma`)

Source, `sql_parser.py` lines 220-250: a single pass over the characters
keeps a `current` buffer and a parenthesis depth; `(` and `)` adjust the
depth, a comma at depth zero emits the buffer, and at the end the buffer
is emitted only if it is non-empty. -/

def sbcGo (cur : List Char) (d : Int) : List Char → List (List Char)
  | [] => if cur.isEmpty then [] else [cur]
  | c :: cs =>
    if c = '(' then sbcGo (cur ++ [c]) (d + 1) cs
    else if c = ')' then sbcGo (cur ++ [c]) (d - 1) cs
    else if c = ',' ∧ d = 0 then cur :: sbcGo [] d cs
    else sbcGo (cur ++ [c]) d cs

def split_by_comma (s : String) : List String :=
  (sbcGo [] 0 s.data).map String.mk

/-! Specification-side splitter for claim C7, written from the spec's words:
the ordered substrings delimited by exactly the commas that occur at
parenthesis nesting depth zero (depth up on `(`, down on `)`). -/

/-- prepend a character to the first group of a non-empty group list. -/
def consHead (c : Char) : List (List Char) → List (List Char)
  | [] => [[c]]
  | g :: gs => (c :: g) :: gs

def refSplitGo (d : Int) : List Char → List (List Char)
  | [] => [[]]
  | c :: cs =>
    if c = ',' ∧ d = 0 then [] :: refSplitGo d cs
    else if c = '(' then consHead c (refSplitGo (d + 1) cs)
    else if c = ')' then consHead c (refSplitGo (d - 1) cs)
    else consHead c (refSplitGo d cs)

/-- the split the spec describes: every depth-zero comma is a delimiter,
including a trailing one. -/
def ref_split (s : String) : List String :=
  (refSplitGo 0 s.data).map String.mk

/-- drop a final empty group, if any (the correction C7 forces: the code
never emits the segment after a trailing depth-zero comma). -/
def dropTrailingEmpty : List (List Char) → List (List Char)
  | [] => []
  | [g] => if g.isEmpty then [] else [g]
  | g :: g2 :: gs => g :: dropTrailingEmpty (g2 :: gs)

/-- prepend pending characters to the first group of a group list (helper
for relating the accumulator-style splitter to the reference split). -/
def prependHead (cur : List Char) : List (List Char) → List (List Char)
  | [] => [cur]
  | g :: gs => (cur ++ g) :: gs

/-! ## Embedded regular-expression scanners

Each scanner is the maximal-munch reading of one regex from the source.
`matchLitCI` consumes a literal word case-insensitively (patterns are given
in lowercase), `munchWs1`/`munchWs0` consume `\s+`/`\s*`, and
`expectParenGroup` consumes `\(([^)]+)\)` returning the capture. -/

def matchLitCI : List Char → List Char → Option (List Char)
  | [], cs => some cs
  | _ :: _, [] => none
  | p :: ps, c :: cs => if c.toLower = p then matchLitCI ps cs else none

def munchWs1 : List Char → Option (List Char)
  | [] => none
  | c :: cs => if isWs c then some (cs.dropWhile isWs) else none

def munchWs0 (cs : List Char) : List Char := cs.dropWhile isWs

def expectParenGroup : List Char → Option (List Char)
  | [] => none
  | c :: rest =>
    if c = '(' then
      let grp := rest.takeWhile (fun x => !(x = ')'))
      if grp.isEmpty then none
      else if grp.length < rest.length then some grp else none
    else none

def litPrimary : List Char := (r"primary").data
def litKey : List Char := (r"key").data
def litForeign : List Char := (r"foreign").data
def litConstraint : List Char := (r"constraint").data
def litReferences : List Char := (r"references").data

/-- attempt `WORD1\s+WORD2\s*\(([^)]+)\)` at the start of the input. -/
def tryWordsParen (w1 w2 : List Char) (cs : List Char) : Option (List Char) := do
  let r1 ← matchLitCI w1 cs
  let r2 ← munchWs1 r1
  let r3 ← matchLitCI w2 r2
  expectParenGroup (munchWs0 r3)

/-- leftmost match of `PRIMARY\s+KEY\s*\(([^)]+)\)` (the search in the
standalone primary-key branch of `_parse_create_table`). -/
def searchPkParen : List Char → Option (List Char)
  | [] => none
  | c :: cs =>
    match tryWordsParen litPrimary litKey (c :: cs) with
    | some g => some g
    | none => searchPkParen cs

/-- leftmost match of `FOREIGN\s+KEY\s*\(([^)]+)\)` from `_parse_foreign_key`. -/
def searchFkCols : List Char → Option (List Char)
  | [] => none
  | c :: cs =>
    match tryWordsParen litForeign litKey (c :: cs) with
    | some g => some g
    | none => searchFkCols cs

/-- attempt `CONSTRAINT\s+([^\s]+)` at the start of the input. -/
def tryConstraintName (cs : List Char) : Option (List Char) := do
  let r1 ← matchLitCI litConstraint cs
  let r2 ← munchWs1 r1
  let grp := r2.takeWhile (fun c => !(isWs c))
  if grp.isEmpty then none else some grp

/-- leftmost match of `CONSTRAINT\s+([^\s]+)` from `_parse_foreign_key`. -/
def searchConstraintName : List Char → Option (List Char)
  | [] => none
  | c :: cs =>
    match tryConstraintName (c :: cs) with
    | some g => some g
    | none => searchConstraintName cs

/-- attempt `REFERENCES\s+([^\s(]+)\s*\(([^)]+)\)` at the start of the
input, returning the two captures (table, column list). -/
def tryRef (cs : List Char) : Option (List Char × List Char) := do
  let r1 ← matchLitCI litReferences cs
  let r2 ← munchWs1 r1
  let tbl := r2.takeWhile (fun c => !(isWs c) && !(c = '('))
  if tbl.isEmpty then none
  else
    let r3 := munchWs0 (r2.drop tbl.length)
    let grp ← expectParenGroup r3
    pure (tbl, grp)

/-- leftmost match of `REFERENCES\s+([^\s(]+)\s*\(([^)]+)\)`. -/
def searchRef : List Char → Option (List Char × List Char)
  | [] => none
  | c :: cs =>
    match tryRef (c :: cs) with
    | some g => some g
    | none => searchRef cs

/-- attempt the bare phrase `PRIMARY\s+KEY` at the start of the input,
returning the rest after the match (used by both the `re.search` and the
`re.sub` over a column's constraint text). -/
def tryPkPhrase (cs : List Char) : Option (List Char) := do
  let r1 ← matchLitCI litPrimary cs
  let r2 ← munchWs1 r1
  matchLitCI litKey r2

/-- does `PRIMARY\s+KEY` occur anywhere (the `re.search` in
`_parse_column_definition`)? -/
def hasPkPhrase : List Char → Bool
  | [] => false
  | c :: cs => (tryPkPhrase (c :: cs)).isSome || hasPkPhrase cs

/-- remove every non-overlapping occurrence of `PRIMARY\s+KEY`, scanning
left to right and resuming after each match, as `re.sub` does.  The fuel
argument bounds the recursion; every step consumes at least one character,
so fuel equal to the input length is always enough. -/
def removePkFuel : Nat → List Char → List Char
  | 0, cs => cs
  | _ + 1, [] => []
  | n + 1, c :: cs =>
    match tryPkPhrase (c :: cs) with
    | some rest => removePkFuel n rest
    | none => c :: removePkFuel n cs

def removePkAll (cs : List Char) : List Char := removePkFuel cs.length cs

/-! ## Fragment classification tests (`re.match`, i.e. anchored at the start) -/

/-- does the fragment start with `PRIMARY\s+KEY` (the `re.match` guarding
the standalone primary-key branch)? -/
def isPkClauseL (cs : List Char) : Bool :=
  (do
    let r1 ← matchLitCI litPrimary cs
    let r2 ← munchWs1 r1
    matchLitCI litKey r2).isSome

/-- does the fragment start with `FOREIGN\s+KEY`? -/
def isFkClauseL (cs : List Char) : Bool :=
  (do
    let r1 ← matchLitCI litForeign cs
    let r2 ← munchWs1 r1
    matchLitCI litKey r2).isSome

/-- does the fragment start with `CONSTRAINT`? -/
def isConstraintClauseL (cs : List Char) : Bool :=
  (matchLitCI litConstraint cs).isSome

/-! ## Body extraction (`re.search(r'\((.*)\)', stmt_str, re.DOTALL)`)

The pattern is greedy: a match starting at a `(` captures everything up to
the last `)` of the whole text.  `re.search` tries successive start
positions, which `reSearchParen` reproduces literally. -/

/-- content strictly before the last `)` of the input, or `none` if the
input has no `)` (the greedy `(.*)\)` step of the body regex). -/
def dropAfterLastClose (cs : List Char) : Option (List Char) :=
  match cs.reverse.dropWhile (fun c => !(c = ')')) with
  | [] => none
  | _ :: t => some t.reverse

def reSearchParen : List Char → Option (List Char)
  | [] => none
  | c :: cs =>
    if c = '(' then
      match dropAfterLastClose cs with
      | some g => some g
      | none => reSearchParen cs
    else reSearchParen cs

/-- the table-body string `_parse_create_table` extracts from the raw
statement text. -/
def extract_body (s : String) : Option String :=
  (reSearchParen s.data).map String.mk

/-! Specification-side body extractors for claim C2. -/

/-- characters up to the `)` matching an already-open parenthesis, tracking
nesting depth. -/
def takeToMatching : Nat → List Char → Option (List Char)
  | _, [] => none
  | d, c :: cs =>
    if c = ')' then
      match d with
      | 0 => some []
      | d0 + 1 => (takeToMatching d0 cs).map (fun t => c :: t)
    else if c = '(' then (takeToMatching (d + 1) cs).map (fun t => c :: t)
    else (takeToMatching d cs).map (fun t => c :: t)

/-- the substring between the first `(` and its matching outermost `)`,
which is what the spec sentence behind claim C2 describes. -/
def matchingParenBody (cs : List Char) : Option (List Char) :=
  match cs.dropWhile (fun c => !(c = '(')) with
  | [] => none
  | _ :: rest => takeToMatching 0 rest

def matching_body (s : String) : Option String :=
  (matchingParenBody s.data).map String.mk

/-- the substring between the first `(` and the last `)` of the whole text
(the amended reading of claim C2). -/
def firstOpenLastClose (cs : List Char) : Option (List Char) :=
  match cs.dropWhile (fun c => !(c = '(')) with
  | [] => none
  | _ :: rest => dropAfterLastClose rest

/-! ## Column-name list cleanup

Python: `[col.strip().strip('`"[]') for col in group.split(',')]`. -/

/-- Python `str.split(',')`: split at every comma, keeping empty pieces. -/
def splitCommaL : List Char → List (List Char)
  | [] => [[]]
  | c :: cs =>
    if c = ',' then [] :: splitCommaL cs
    else consHead c (splitCommaL cs)

def cleanCols (grp : List Char) : List String :=
  (splitCommaL grp).map (fun c => String.mk (stripQuotesL (pyStripL c)))

/-! ## `_parse_foreign_key` (`sql_parser.py` lines 179-217) -/

structure PFk where
  name : String
  columns : List String
  ref_table : String
  ref_columns : List String
  deriving DecidableEq, Repr

/-- Python `'_'.join(columns)`. -/
def joinUnderscore (cols : List String) : String :=
  String.intercalate (r"_") cols

def parse_foreign_key (fkDef : String) : Option PFk :=
  let cs := fkDef.data
  let fkName := (searchConstraintName cs).map (fun g => String.mk (stripQuotesL g))
  match searchFkCols cs with
  | none => none
  | some colsGrp =>
    let fkColumns := cleanCols colsGrp
    match searchRef cs with
    | none => none
    | some (tbl, refGrp) =>
      let refTable := String.mk (stripQuotesL tbl)
      let refColumns := cleanCols refGrp
      let finalName :=
        match fkName with
        | some n => if n = r"" then r"fk_" ++ refTable ++ r"_" ++ joinUnderscore fkColumns else n
        | none => r"fk_" ++ refTable ++ r"_" ++ joinUnderscore fkColumns
      some ⟨finalName, fkColumns, refTable, refColumns⟩

/-! ## `_parse_column_definition` (`sql_parser.py` lines 133-176) -/

structure PColumn where
  name : String
  type : String
  constraints : Option String
  is_primary_key : Bool
  deriving DecidableEq, Repr

/-- Python `s.split(None, 2)`: at most three pieces, whitespace runs as
separators, the third piece being the raw remainder (leading separator
whitespace consumed, trailing whitespace kept). -/
def splitNone2 (s : String) : List String :=
  let cs := s.data.dropWhile isWs
  let w1 := cs.takeWhile (fun c => !(isWs c))
  if w1.isEmpty then []
  else
    let r1 := (cs.drop w1.length).dropWhile isWs
    let w2 := r1.takeWhile (fun c => !(isWs c))
    if w2.isEmpty then [String.mk w1]
    else
      let r2 := (r1.drop w2.length).dropWhile isWs
      if r2.isEmpty then [String.mk w1, String.mk w2]
      else [String.mk w1, String.mk w2, String.mk r2]

/-- anchored match of `([A-Z]+)(\([^)]+\))?` with `re.IGNORECASE`: a run of
letters, optionally followed by a non-empty parenthesized parameter list;
returns the whole matched span. -/
def tryTypeSpan (cs : List Char) : Option (List Char) :=
  let letters := cs.takeWhile Char.isAlpha
  if letters.isEmpty then none
  else
    match expectParenGroup (cs.drop letters.length) with
    | some grp => some (letters ++ '(' :: (grp ++ [')']))
    | none => some letters

/-- the type string of a column: the matched type span uppercased, or the
whole second piece uppercased when the type regex does not match. -/
def colTypeOf (p1 : String) : String :=
  match tryTypeSpan p1.data with
  | some span => String.mk (upperL span)
  | none => String.mk (upperL p1.data)

/-- specification-side description (claim C9) of what becomes of a column
fragment's remainder piece: strip it; if it contains the `PRIMARY KEY`
phrase remove the phrase and re-strip; a non-empty result is the
constraints text, an empty one means the field is absent. -/
def constraintsOf (p2 : String) : Option String :=
  let r0 := pyStripL p2.data
  if hasPkPhrase r0 then
    let r1 := pyStripL (removePkAll r0)
    if r1.isEmpty then none else some (String.mk r1)
  else if r0.isEmpty then none else some (String.mk r0)

def parse_column_definition (colDef : String) : Option PColumn :=
  match splitNone2 colDef with
  | p0 :: p1 :: rest =>
    let colName := String.mk (stripQuotesL p0.data)
    let colType := colTypeOf p1
    match rest with
    | [] => some ⟨colName, colType, none, false⟩
    | p2 :: _ =>
      let s0 := pyStripL p2.data
      if hasPkPhrase s0 then
        let s1 := pyStripL (removePkAll s0)
        some ⟨colName, colType, (if s1.isEmpty then none else some (String.mk s1)), true⟩
      else
        some ⟨colName, colType, (if s0.isEmpty then none else some (String.mk s0)), false⟩
  | _ => none

/-! ## The fragment loop of `_parse_create_table` (lines 91-120)

Each top-level fragment is stripped and classified in priority order
(standalone `PRIMARY KEY`, `FOREIGN KEY`, `CONSTRAINT`, column
definition); its contributions to the columns, primary-key and
foreign-key accumulators are appended in fragment order. -/

def part_contrib (part0 : String) : List PColumn × List String × List PFk :=
  let part := pyStripL part0.data
  if isPkClauseL part then
    match searchPkParen part with
    | some grp => ([], cleanCols grp, [])
    | none => ([], [], [])
  else if isFkClauseL part then
    match parse_foreign_key (String.mk part) with
    | some fk => ([], [], [fk])
    | none => ([], [], [])
  else if isConstraintClauseL part then
    match parse_foreign_key (String.mk part) with
    | some fk => ([], [], [fk])
    | none => ([], [], [])
  else
    match parse_column_definition (String.mk part) with
    | some col => ([col], (if col.is_primary_key then [col.name] else []), [])
    | none => ([], [], [])

def processParts : List String → List PColumn × List String × List PFk
  | [] => ([], [], [])
  | p :: ps =>
    let h := part_contrib p
    let t := processParts ps
    (h.1 ++ t.1, h.2.1 ++ t.2.1, h.2.2 ++ t.2.2)

/-! ## Table-name scan and `_parse_create_table` (lines 51-130)

The name scan walks the sqlparse token stream: it skips the `CREATE` DDL
token, arms a flag at a `TABLE` keyword token, and takes the value of the
first Name-class token after that, stripped of quoting.  The sqlparse
tokenizer itself is an external collaborator; tokens are modelled as
(type, value) pairs.  A Name-class token is never whitespace, so the
source's redundant `not token.is_whitespace` conjunct is dropped. -/

inductive TType where
  | ddl
  | keyword
  | name
  | other
  deriving DecidableEq, Repr

structure Token where
  ttype : TType
  value : String
  deriving DecidableEq, Repr

def findTableName : Bool → List Token → Option String
  | _, [] => none
  | inName, t :: ts =>
    if t.ttype = TType.ddl ∧ upperStr t.value = r"CREATE" then findTableName inName ts
    else if t.ttype = TType.keyword ∧ upperStr t.value = r"TABLE" then findTableName true ts
    else if inName ∧ t.ttype = TType.name then some (String.mk (stripQuotesL t.value.data))
    else findTableName inName ts

structure PTable where
  name : String
  columns : List PColumn
  primary_key : List String
  foreign_keys : List PFk
  deriving DecidableEq, Repr

/-- `_parse_create_table`: the statement is given as its token stream plus
its raw text (Python recovers the text via `str(stmt)`).  The result is
`none` exactly when the scanned table name is missing or falsy (empty). -/
def parse_create_table (tokens : List Token) (stmtStr : String) : Option PTable :=
  let tableName := findTableName false tokens
  let parsed :=
    match reSearchParen stmtStr.data with
    | some defs => processParts (split_by_comma (String.mk defs))
    | none => ([], [], [])
  match tableName with
  | none => none
  | some n => if n = r"" then none else some ⟨n, parsed.1, parsed.2.1, parsed.2.2⟩

/-! ## The typed AST (`models/schema.py`) -/

structure Column where
  name : String
  type : String
  constraints : Option String
  deriving DecidableEq, Repr

structure ForeignKey where
  name : String
  columns : List String
  ref_table : String
  ref_columns : List String
  deriving DecidableEq, Repr

structure Table where
  name : String
  columns : List Column
  primary_key : List String
  foreign_keys : List ForeignKey
  deriving DecidableEq, Repr

structure Schema where
  tables : List Table
  deriving DecidableEq, Repr

/-! ## Raw records

The loosely-typed dictionaries flowing between the parser, the AST builder
and the validator are embedded as structures whose every key that the code
tests or may find missing is an `Option` field (`none` = key absent).
Values themselves are kept Lean-typed: the validator's `isinstance`
branches for wrongly-typed values (a non-string name, a non-list column
list) are unrepresentable in this embedding and are therefore omitted;
no claim depends on them.  In a column, `constraints = none` covers both
an absent key and an explicit `None` value, which `col_dict.get` and the
validator treat identically. -/

structure RColumn where
  name : Option String
  type : Option String
  constraints : Option String
  deriving DecidableEq, Repr

structure RFk where
  name : Option String
  columns : Option (List String)
  ref_table : Option String
  ref_columns : Option (List String)
  deriving DecidableEq, Repr

structure RTable where
  name : Option String
  columns : Option (List RColumn)
  primary_key : Option (List String)
  foreign_keys : Option (List RFk)
  deriving DecidableEq, Repr

/-! ## The AST builder (`ast_builder.py`, `ASTBuilder._build_table`)

A pure mapping; a Python subscript `d['k']` on a missing key raises
`KeyError('k')`, embedded as `Except.error`.  `.get` calls with defaults
never raise.  Evaluation order follows the source: the column list is
built first, then the foreign-key list, and the table's `name` subscript
is evaluated last (inside the `Table(...)` call). -/

def keyErr (k : String) : String := r"KeyError: " ++ k

def build_column (c : RColumn) : Except String Column :=
  match c.name with
  | none => Except.error (keyErr (r"name"))
  | some n =>
    match c.type with
    | none => Except.error (keyErr (r"type"))
    | some ty => Except.ok ⟨n, ty, c.constraints⟩

def build_columns : List RColumn → Except String (List Column)
  | [] => Except.ok []
  | c :: cs => do
    let col ← build_column c
    let rest ← build_columns cs
    Except.ok (col :: rest)

def build_fk (f : RFk) : Except String ForeignKey :=
  match f.name with
  | none => Except.error (keyErr (r"name"))
  | some n =>
    match f.columns with
    | none => Except.error (keyErr (r"columns"))
    | some cols =>
      match f.ref_table with
      | none => Except.error (keyErr (r"ref_table"))
      | some rt =>
        match f.ref_columns with
        | none => Except.error (keyErr (r"ref_columns"))
        | some rcols => Except.ok ⟨n, cols, rt, rcols⟩

def build_fks : List RFk → Except String (List ForeignKey)
  | [] => Except.ok []
  | f :: fs => do
    let fk ← build_fk f
    let rest ← build_fks fs
    Except.ok (fk :: rest)

def build_table (t : RTable) : Except String Table := do
  let cols ← build_columns (t.columns.getD [])
  let fks ← build_fks (t.foreign_keys.getD [])
  match t.name with
  | none => Except.error (keyErr (r"name"))
  | some n => Except.ok ⟨n, cols, t.primary_key.getD [], fks⟩

def build (tables : List RTable) : Except String Schema := do
  let ts ← tables.mapM build_table
  Except.ok ⟨ts⟩

/-! ## The schema validator (`utils/validators.py`)

`validate_schema` runs a first, structural pass over every table in list
order, then a second, referential pass over the foreign keys; the first
violated check raises `SchemaValidationError`, embedded as
`Except.error` carrying the exact message text the source formats.
Python string quotes inside messages are produced by `quoted`. -/

/-- a single-quote character as a string. -/
def sq : String := String.mk [Char.ofNat 39]

/-- wrap in single quotes, as the f-string fragments `'{name}'` do. -/
def quoted (s : String) : String := sq ++ s ++ sq

def msgDupColumn (col tbl : String) : String :=
  r"Duplicate column name " ++ quoted col ++ r" in table " ++ quoted tbl

def msgAtLeastOneColumn (tbl : String) : String :=
  r"Table " ++ quoted tbl ++ r" must have at least one column"

def msgFkField (tbl : String) (index : Nat) (field : String) : String :=
  r"Foreign key at index " ++ toString index ++ r" in table " ++ quoted tbl ++
    r" must have " ++ quoted field ++ r" field"

def msgMismatch (fkName tbl : String) (nc nr : Nat) : String :=
  r"Foreign key " ++ quoted fkName ++ r" in table " ++ quoted tbl ++
    r" has mismatched column counts: " ++ toString nc ++ r" columns but " ++
    toString nr ++ r" ref_columns"

def msgNonexistentTable (fkName tbl rt : String) : String :=
  r"Foreign key " ++ quoted fkName ++ r" in table " ++ quoted tbl ++
    r" references non-existent table " ++ quoted rt

/-- `_validate_column`: required keys `name` and `type`, then non-emptiness
of both.  The `constraints`-must-be-a-string check cannot fail in the
typed embedding and is omitted. -/
def validate_column (column : RColumn) (tableName : String) (index : Nat) :
    Except String Unit :=
  match column.name with
  | none =>
    Except.error (r"Column at index " ++ toString index ++ r" in table " ++
      quoted tableName ++ r" must have " ++ quoted (r"name") ++ r" field")
  | some n =>
    match column.type with
    | none =>
      Except.error (r"Column " ++ quoted n ++ r" in table " ++ quoted tableName ++
        r" must have " ++ quoted (r"type") ++ r" field")
    | some ty =>
      if n = r"" then
        Except.error (r"Column name at index " ++ toString index ++ r" in table " ++
          quoted tableName ++ r" must be a non-empty string")
      else if ty = r"" then
        Except.error (r"Column " ++ quoted n ++ r" type in table " ++
          quoted tableName ++ r" must be a non-empty string")
      else Except.ok ()

/-- the per-column loop of `_validate_table`: validate each column in
order, rejecting a name already seen in this table. -/
def validate_columns_loop (tableName : String) :
    List RColumn → Nat → List String → Except String Unit
  | [], _, _ => Except.ok ()
  | c :: cs, i, seen => do
    validate_column c tableName i
    let n := c.name.getD (r"")
    if seen.contains n then Except.error (msgDupColumn n tableName)
    else validate_columns_loop tableName cs (i + 1) (n :: seen)

/-- the primary-key loop of `_validate_table`: each entry must be a known
column name, checked in list order. -/
def validate_pk_loop (tableName : String) (colNames : List String) :
    List String → Except String Unit
  | [] => Except.ok ()
  | p :: ps =>
    if colNames.contains p then validate_pk_loop tableName colNames ps
    else
      Except.error (r"Primary key column " ++ quoted p ++ r" not found in table " ++
        quoted tableName)

/-- `_validate_table`: required keys in order (`name`, `columns`,
`primary_key`), non-empty name, non-empty column list, the column loop,
then the primary-key loop.  The key presence of `name` on a column inside
the duplicate check is guaranteed by `validate_column` having succeeded,
so the `getD` defaults there are never taken. -/
def validate_table (table : RTable) (index : Nat) : Except String Unit :=
  match table.name with
  | none =>
    Except.error (r"Table at index " ++ toString index ++ r" must have " ++
      quoted (r"name") ++ r" field")
  | some nm =>
    match table.columns with
    | none =>
      Except.error (r"Table " ++ quoted nm ++ r" must have " ++
        quoted (r"columns") ++ r" field")
    | some cols =>
      match table.primary_key with
      | none =>
        Except.error (r"Table " ++ quoted nm ++ r" must have " ++
          quoted (r"primary_key") ++ r" field")
      | some pk =>
        if nm = r"" then
          Except.error (r"Table name at index " ++ toString index ++
            r" must be a non-empty string")
        else if cols.isEmpty then Except.error (msgAtLeastOneColumn nm)
        else do
          validate_columns_loop nm cols 0 []
          validate_pk_loop nm (cols.map (fun c => c.name.getD (r""))) pk

/-- `_validate_foreign_key`: required keys in order, then each referential
check in source order, ending with the arity comparison. -/
def validate_foreign_key (fk : RFk) (tableName : String) (index : Nat)
    (tableNames : List String) (colsOf : String → List String) :
    Except String Unit :=
  match fk.name with
  | none => Except.error (msgFkField tableName index (r"name"))
  | some nm =>
    match fk.columns with
    | none => Except.error (msgFkField tableName index (r"columns"))
    | some cols =>
      match fk.ref_table with
      | none => Except.error (msgFkField tableName index (r"ref_table"))
      | some rt =>
        match fk.ref_columns with
        | none => Except.error (msgFkField tableName index (r"ref_columns"))
        | some rcols =>
          if nm = r"" then
            Except.error (r"Foreign key name at index " ++ toString index ++
              r" in table " ++ quoted tableName ++ r" must be a non-empty string")
          else if cols.isEmpty then
            Except.error (r"Foreign key " ++ quoted nm ++ r" columns in table " ++
              quoted tableName ++ r" must be a non-empty list")
          else
            match cols.find? (fun c => !((colsOf tableName).contains c)) with
            | some c =>
              Except.error (r"Foreign key " ++ quoted nm ++
                r" references non-existent column " ++ quoted c ++ r" in table " ++
                quoted tableName)
            | none =>
              if rt = r"" then
                Except.error (r"Foreign key " ++ quoted nm ++
                  r" ref_table in table " ++ quoted tableName ++
                  r" must be a non-empty string")
              else if !(tableNames.contains rt) then
                Except.error (msgNonexistentTable nm tableName rt)
              else if rcols.isEmpty then
                Except.error (r"Foreign key " ++ quoted nm ++
                  r" ref_columns in table " ++ quoted tableName ++
                  r" must be a non-empty list")
              else
                match rcols.find? (fun c => !((colsOf rt).contains c)) with
                | some c =>
                  Except.error (r"Foreign key " ++ quoted nm ++ r" in table " ++
                    quoted tableName ++ r" references non-existent column " ++
                    quoted c ++ r" in table " ++ quoted rt)
                | none =>
                  if cols.length ≠ rcols.length then
                    Except.error (msgMismatch nm tableName cols.length rcols.length)
                  else Except.ok ()

def validate_fks_loop (tableName : String) (tableNames : List String)
    (colsOf : String → List String) : List RFk → Nat → Except String Unit
  | [], _ => Except.ok ()
  | fk :: fks, i => do
    validate_foreign_key fk tableName i tableNames colsOf
    validate_fks_loop tableName tableNames colsOf fks (i + 1)

/-- `_validate_foreign_keys`: absent `foreign_keys` key means nothing to
check; otherwise each entry is validated in order.  The table name subscript
is guaranteed present by pass 1, so its default is never taken. -/
def validate_foreign_keys (table : RTable) (tableNames : List String)
    (colsOf : String → List String) : Except String Unit :=
  match table.foreign_keys with
  | none => Except.ok ()
  | some fks => validate_fks_loop (table.name.getD (r"")) tableNames colsOf fks 0

def run_pass1 : List RTable → Nat → Except String Unit
  | [], _ => Except.ok ()
  | t :: ts, i => do
    validate_table t i
    run_pass1 ts (i + 1)

/-- the set of table names collected by pass 1 (membership queries only,
so a list models the Python set). -/
def tableNamesOf (tables : List RTable) : List String :=
  tables.map (fun t => t.name.getD (r""))

/-- the per-table column-name sets collected by pass 1.  Python stores them
in a dict keyed by table name, so a later table with the same name
overwrites an earlier one; looking up the last match models that. -/
def colsOfTables (tables : List RTable) (nm : String) : List String :=
  match tables.reverse.find? (fun t => t.name.getD (r"") = nm) with
  | some t => (t.columns.getD []).map (fun c => c.name.getD (r""))
  | none => []

def run_pass2 (tableNames : List String) (colsOf : String → List String) :
    List RTable → Except String Unit
  | [] => Except.ok ()
  | t :: ts => do
    validate_foreign_keys t tableNames colsOf
    run_pass2 tableNames colsOf ts

/-- `validate_schema`, minus the top-level shape checks (dict-ness, the
`tables` key, list-ness) that the typed embedding makes unrepresentable:
the complete structural pass over every table in order, then the complete
referential pass. -/
def validate_schema (tables : List RTable) : Except String Unit := do
  run_pass1 tables 0
  run_pass2 (tableNamesOf tables) (colsOfTables tables) tables

/-! ## Claim-side definitions

These render sentences of the specification, to be compared with the
embedded code. -/

/-- claim C3's description of what one fragment contributes to the
primary-key list: a standalone `PRIMARY KEY` clause contributes its
quote-stripped parenthesized column list; a column definition flagged
inline-primary-key contributes its own name; everything else contributes
nothing. -/
def pkClaimContrib (part0 : String) : List String :=
  let part := pyStripL part0.data
  if isPkClauseL part then
    match searchPkParen part with
    | some grp => cleanCols grp
    | none => []
  else if isFkClauseL part || isConstraintClauseL part then []
  else
    match parse_column_definition (String.mk part) with
    | some col => if col.is_primary_key then [col.name] else []
    | none => []

/-- claim C4's amended completeness condition on a raw table record: the
table's `name`, every column's `name` and `type`, and every foreign-key
entry's four fields are present. -/
def rtableComplete (t : RTable) : Prop :=
  t.name ≠ none ∧
  (∀ c ∈ t.columns.getD [], c.name ≠ none ∧ c.type ≠ none) ∧
  (∀ f ∈ t.foreign_keys.getD [],
    f.name ≠ none ∧ f.columns ≠ none ∧ f.ref_table ≠ none ∧ f.ref_columns ≠ none)

instance (t : RTable) : Decidable (rtableComplete t) := by
  unfold rtableComplete; infer_instance

/-! ## Concrete instances used by witnesses and counterexamples -/

/-- a table that passes the structural pass but whose foreign key points at
a table that does not exist. -/
def t1Dangling : RTable :=
  ⟨some (r"a"), some [⟨some (r"id"), some (r"INTEGER"), none⟩], some [],
   some [⟨some (r"fk1"), some [r"id"], some (r"zzz"), some [r"w"]⟩]⟩

/-- a table with a duplicate column name, a structural fault. -/
def t2DupCol : RTable :=
  ⟨some (r"b"),
   some [⟨some (r"id"), some (r"INTEGER"), none⟩, ⟨some (r"id"), some (r"TEXT"), none⟩],
   some [], none⟩

/-- a statement whose column list is followed by more parenthesized text. -/
def c2Stmt : String := r"CREATE TABLE t (a INT) COMMENT (x)"

/-- a raw table record whose table name and column fields are all present
but whose foreign-key entry lacks its `name` key. -/
def c4Bad : RTable :=
  ⟨some (r"t"), some [⟨some (r"a"), some (r"INT"), none⟩], some [],
   some [⟨none, some [r"a"], some (r"r"), some [r"b"]⟩]⟩

/-- a fully keyed raw table record. -/
def c4Good : RTable :=
  ⟨some (r"t"), some [⟨some (r"a"), some (r"INT"), none⟩], some [r"a"],
   some [⟨some (r"fk"), some [r"a"], some (r"r"), some [r"b"]⟩]⟩

def c5In : String := r"FOREIGN KEY (c) REFERENCES other(d)"

def c6In : String := r"FOREIGN KEY (a) REFERENCES t(b, c)"

/-- recorded column sets for the C6 witness schema. -/
def c6ColsOf (nm : String) : List String :=
  if nm = r"own" then [r"a"]
  else if nm = r"t" then [r"b", r"c"]
  else []

def c9In : String := r"flag INT NOT NULL Primary  Key"

/-- a token stream whose first Name-class token is a quoted empty
identifier: the scan finds a name, but it strips to the empty string. -/
def c10EmptyNameToks : List Token :=
  [⟨TType.ddl, r"CREATE"⟩, ⟨TType.keyword, r"TABLE"⟩,
   ⟨TType.name, String.mk [Char.ofNat 96, Char.ofNat 96]⟩]

/-- a well-formed token stream for a table named users. -/
def c10UsersToks : List Token :=
  [⟨TType.ddl, r"CREATE"⟩, ⟨TType.keyword, r"TABLE"⟩, ⟨TType.name, r"users"⟩]

/-! # Theorems -/

/-- C1: validation returns success or exactly one error, and the whole
structural pass (pass 1, per table in list order) completes over every
table before any referential foreign-key check of pass 2 runs: whenever
the first table passes its structural validation — whatever its foreign
keys reference — and the second table fails structurally with error `e`,
the schema validator reports exactly `e`.  In particular an invalid
foreign key on an earlier table never preempts a later table's structural
fault. -/
theorem validate_schema_pass1_precedes_pass2 (t1 t2 : RTable) (e : String)
    (h1 : validate_table t1 0 = Except.ok ())
    (h2 : validate_table t2 1 = Except.error e) :
    validate_schema [t1, t2] = Except.error e := by
  simp only [validate_schema, run_pass1, h1, h2, bind, Except.bind]

/-- C1 witness: a first table whose foreign key references a non-existent
table (so pass 2 alone would reject it, first conjunct) together with a
second table carrying a duplicate column name is rejected with the second
table's structural fault. -/
theorem validate_schema_pass1_precedes_pass2_witness :
    validate_schema [t1Dangling] =
      Except.error (msgNonexistentTable (r"fk1") (r"a") (r"zzz")) ∧
    validate_schema [t1Dangling, t2DupCol] =
      Except.error (msgDupColumn (r"id") (r"b")) :=
  ⟨by decide,
   validate_schema_pass1_precedes_pass2 t1Dangling t2DupCol
     (msgDupColumn (r"id") (r"b")) (by decide) (by decide)⟩

/-- C5: whenever a foreign-key fragment parses successfully and no
`CONSTRAINT <name>` pattern occurs in it, the resulting foreign key's
name is the synthesized `fk_` ++ referenced table ++ `_` ++ the local
column names joined by underscores. -/
theorem parse_foreign_key_synthesized_name (s : String) (fk : PFk)
    (h : parse_foreign_key s = some fk)
    (hn : searchConstraintName s.data = none) :
    fk.name = r"fk_" ++ fk.ref_table ++ r"_" ++ joinUnderscore fk.columns := by
  simp only [parse_foreign_key, hn, Option.map_none'] at h
  cases hfk : searchFkCols s.data with
  | none => rw [hfk] at h; exact absurd h (by simp)
  | some colsGrp =>
    rw [hfk] at h
    cases href : searchRef s.data with
    | none => rw [href] at h; exact absurd h (by simp)
    | some pr =>
      obtain ⟨tbl, refGrp⟩ := pr
      rw [href] at h
      simp only [Option.some.injEq] at h
      subst h
      rfl

/-- C5 witness: `FOREIGN KEY (c) REFERENCES other(d)` carries no
constraint name and yields the synthesized name `fk_other_c`. -/
theorem parse_foreign_key_synthesized_name_witness :
    parse_foreign_key c5In = some ⟨r"fk_other_c", [r"c"], r"other", [r"d"]⟩ ∧
    (⟨r"fk_other_c", [r"c"], r"other", [r"d"]⟩ : PFk).name =
      r"fk_" ++ (r"other") ++ r"_" ++ joinUnderscore [r"c"] :=
  ⟨by decide,
   parse_foreign_key_synthesized_name c5In ⟨r"fk_other_c", [r"c"], r"other", [r"d"]⟩
     (by decide) (by decide)⟩

/-- C8: a fragment with no `FOREIGN KEY (...)` pattern, or no
`REFERENCES <table> (...)` pattern, makes the foreign-key clause parser
yield nothing (first two conjuncts), and in the fragment loop such a
fragment — one classified as a foreign-key or constraint clause whose
parse fails — contributes nothing while the remaining fragments are still
processed exactly as before (third conjunct). -/
theorem parse_foreign_key_silent_skip :
    (∀ s : String, searchFkCols s.data = none → parse_foreign_key s = none) ∧
    (∀ s : String, searchRef s.data = none → parse_foreign_key s = none) ∧
    (∀ (p : String) (ps : List String),
      isPkClauseL (pyStripL p.data) = false →
      (isFkClauseL (pyStripL p.data) = true ∨ isConstraintClauseL (pyStripL p.data) = true) →
      parse_foreign_key (String.mk (pyStripL p.data)) = none →
      processParts (p :: ps) = processParts ps) := by
  refine ⟨fun s hfk => ?_, fun s href => ?_, fun p ps hpk hcls hnone => ?_⟩
  · simp only [parse_foreign_key, hfk]
  · simp only [parse_foreign_key, href]
    cases searchFkCols s.data <;> rfl
  · have hcontrib : part_contrib p = ([], [], []) := by
      by_cases hfk : isFkClauseL (pyStripL p.data) = true
      · simp [part_contrib, hpk, hfk, hnone]
      · have hct : isConstraintClauseL (pyStripL p.data) = true := by
          rcases hcls with h | h
          · exact absurd h hfk
          · exact h
        simp [part_contrib, hpk, hfk, hct, hnone]
    simp only [processParts, hcontrib, List.nil_append]

/-- C8 witness: a fragment starting with `FOREIGN KEY` but lacking the
`REFERENCES` pattern is dropped silently and the following column
fragment is still parsed. -/
theorem parse_foreign_key_silent_skip_witness :
    parse_foreign_key (r"FOREIGN KEY (x) REFERENCES") = none ∧
    processParts [r"FOREIGN KEY (x) REFERENCES", r"y INT"] = processParts [r"y INT"] ∧
    processParts [r"y INT"] = ([⟨r"y", r"INT", none, false⟩], [], []) :=
  ⟨parse_foreign_key_silent_skip.2.1 (r"FOREIGN KEY (x) REFERENCES") (by decide),
   parse_foreign_key_silent_skip.2.2 (r"FOREIGN KEY (x) REFERENCES") [r"y INT"]
     (by decide) (Or.inl (by decide)) (by decide),
   by decide⟩

/-- C9: for every column fragment whose whitespace split produces a third
piece (the remainder), the parsed column is marked inline-primary-key
exactly when the stripped remainder contains the `PRIMARY\s+KEY` phrase
(case-insensitively, any whitespace run between the words), and its
constraints field is `constraintsOf` of the remainder: the remainder with
every such phrase removed and trimmed, or absent when nothing non-empty
remains. -/
theorem parse_column_definition_remainder (s p0 p1 p2 : String)
    (h : splitNone2 s = [p0, p1, p2]) :
    parse_column_definition s =
      some ⟨String.mk (stripQuotesL p0.data), colTypeOf p1, constraintsOf p2,
        hasPkPhrase (pyStripL p2.data)⟩ := by
  simp only [parse_column_definition, h, constraintsOf]
  by_cases hp : hasPkPhrase (pyStripL p2.data) = true
  · simp [hp]
  · simp [hp]

/-- C9 witness: `flag INT NOT NULL Primary  Key` has remainder
`NOT NULL Primary  Key`; the phrase is detected and removed, leaving
constraints `NOT NULL` and the inline-primary-key mark. -/
theorem parse_column_definition_remainder_witness :
    parse_column_definition c9In =
      some ⟨String.mk (stripQuotesL ((r"flag").data)), colTypeOf (r"INT"),
        constraintsOf (r"NOT NULL Primary  Key"),
        hasPkPhrase (pyStripL ((r"NOT NULL Primary  Key").data))⟩ ∧
    constraintsOf (r"NOT NULL Primary  Key") = some (r"NOT NULL") ∧
    hasPkPhrase (pyStripL ((r"NOT NULL Primary  Key").data)) = true :=
  ⟨parse_column_definition_remainder c9In (r"flag") (r"INT")
     (r"NOT NULL Primary  Key") (by decide),
   by decide, by decide⟩

/-- C10 counterexample: the claim's "yields null if and only if no table
name is found" fails in one direction — on a token stream whose first
Name-class token is a quoted empty identifier, the scan does find a name
(it strips to the empty string), yet the statement still yields null,
because the code treats the falsy empty name as missing. -/
theorem parse_create_table_empty_name_counterexample :
    findTableName false c10EmptyNameToks = some (r"") ∧
    parse_create_table c10EmptyNameToks (r"CREATE TABLE x (a INT)") = none :=
  ⟨by decide, by decide⟩

/-- C10 amended: a statement yields null exactly when the name scan finds
nothing or the found name is empty after quote-stripping (first
conjunct); a statement with a non-empty scanned name but no parenthesized
body yields a table record with that name and empty columns, primary-key
and foreign-key lists (second conjunct); and the structural validator
rejects such an empty-column record with the must-have-at-least-one-column
error (third conjunct). -/
theorem parse_create_table_null_iff_no_name :
    (∀ (toks : List Token) (s : String),
      parse_create_table toks s = none ↔
        (findTableName false toks = none ∨ findTableName false toks = some (r""))) ∧
    (∀ (toks : List Token) (s : String) (n : String),
      findTableName false toks = some n → n ≠ r"" → reSearchParen s.data = none →
      parse_create_table toks s = some ⟨n, [], [], []⟩) ∧
    (∀ (n : String) (i : Nat), n ≠ r"" →
      validate_table ⟨some n, some [], some [], some []⟩ i =
        Except.error (msgAtLeastOneColumn n)) := by
  refine ⟨fun toks s => ?_, fun toks s n hf hn hb => ?_, fun n i hn => ?_⟩
  · cases hf : findTableName false toks with
    | none => simp [parse_create_table, hf]
    | some n =>
      by_cases hn : n = r""
      · subst hn; simp [parse_create_table, hf]
      · simp [parse_create_table, hf, hn]
  · simp [parse_create_table, hf, hb, hn, processParts]
  · simp [validate_table, hn, List.isEmpty]

/-- C10 witness: a CREATE TABLE statement whose text has no parentheses is
not skipped; it yields a record named users with empty lists, which the
validator then rejects for having no columns. -/
theorem parse_create_table_null_iff_no_name_witness :
    parse_create_table c10UsersToks (r"CREATE TABLE users") =
      some ⟨r"users", [], [], []⟩ ∧
    validate_table ⟨some (r"users"), some [], some [], some []⟩ 0 =
      Except.error (msgAtLeastOneColumn (r"users")) :=
  ⟨parse_create_table_null_iff_no_name.2.1 c10UsersToks (r"CREATE TABLE users")
     (r"users") (by decide) (by decide) (by decide),
   parse_create_table_null_iff_no_name.2.2 (r"users") 0 (by decide)⟩

theorem isPrefixL_append (p rest : List Char) : isPrefixL p (p ++ rest) = true := by
  induction p with
  | nil => rfl
  | cons c cs ih => simp [isPrefixL, ih]

theorem containsSub_append (pre pat post : List Char) :
    containsSub (pre ++ (pat ++ post)) pat = true := by
  induction pre with
  | nil => unfold containsSub; simp [isPrefixL_append]
  | cons c cs ih =>
    unfold containsSub
    by_cases h : isPrefixL pat (c :: (cs ++ (pat ++ post))) = true
    · simp [h]
    · simp only [List.cons_append, h]
      simp only [Bool.false_eq_true, if_false]
      exact ih

theorem containsSub_of_decomp {l pat : List Char} (pre post : List Char)
    (h : l = pre ++ (pat ++ post)) : containsSub l pat = true :=
  h ▸ containsSub_append pre pat post

/-- C6: the foreign-key clause parser performs no arity comparison — a
clause with one local and two referenced columns still yields a record
(first conjunct) — while the validator, on any foreign key that passes
every earlier check but whose `columns` and `ref_columns` have different
lengths, raises exactly the mismatched-counts error, whose message
contains the text "mismatched column counts" (second conjunct). -/
theorem foreign_key_arity_check_deferred :
    (parse_foreign_key c6In = some ⟨r"fk_t_a", [r"a"], r"t", [r"b", r"c"]⟩) ∧
    (∀ (nm rt tn : String) (cols rcols tns : List String)
       (colsOf : String → List String) (i : Nat),
      nm ≠ r"" → cols.isEmpty = false →
      cols.find? (fun c => !((colsOf tn).contains c)) = none →
      rt ≠ r"" → tns.contains rt = true → rcols.isEmpty = false →
      rcols.find? (fun c => !((colsOf rt).contains c)) = none →
      cols.length ≠ rcols.length →
      validate_foreign_key ⟨some nm, some cols, some rt, some rcols⟩ tn i tns colsOf =
        Except.error (msgMismatch nm tn cols.length rcols.length) ∧
      containsSub (msgMismatch nm tn cols.length rcols.length).data
        ((r"mismatched column counts").data) = true) := by
  refine ⟨by decide, fun nm rt tn cols rcols tns colsOf i
    hnm hcols hfind1 hrt hrtm hrcols hfind2 hlen => ⟨?_, ?_⟩⟩
  · simp only [validate_foreign_key, hfind1, hfind2, hcols, hrtm, hrcols]
    simp [hnm, hrt, hlen]
  · apply containsSub_of_decomp
      ((r"Foreign key " ++ quoted nm ++ r" in table " ++ quoted tn ++ r" has ").data)
      (((r": ") ++ toString cols.length ++ r" columns but " ++
        toString rcols.length ++ r" ref_columns").data)
    have hsplit : (r" has mismatched column counts: ").data =
        (r" has ").data ++ ((r"mismatched column counts").data ++ (r": ").data) := by
      decide
    simp only [msgMismatch, String.data_append, hsplit, List.append_assoc,
      List.cons_append, List.nil_append]

/-- C6 witness: the parsed unequal-arity clause and a concrete validator
run on it in a schema where every earlier check passes. -/
theorem foreign_key_arity_check_deferred_witness :
    validate_foreign_key ⟨some (r"f"), some [r"a"], some (r"t"), some [r"b", r"c"]⟩
      (r"own") 0 [r"own", r"t"] c6ColsOf =
      Except.error (msgMismatch (r"f") (r"own") 1 2) ∧
    containsSub (msgMismatch (r"f") (r"own") 1 2).data
      ((r"mismatched column counts").data) = true :=
  foreign_key_arity_check_deferred.2 (r"f") (r"t") (r"own") [r"a"] [r"b", r"c"]
    [r"own", r"t"] c6ColsOf 0 (by decide) (by decide) (by decide) (by decide)
    (by decide) (by decide) (by decide) (by decide)

theorem dropWhile_head_false {p : Char → Bool} {l : List Char} {x : Char}
    {t : List Char} (hd : l.dropWhile p = x :: t) : p x = false := by
  induction l with
  | nil => simp at hd
  | cons a as ih =>
    rw [List.dropWhile_cons] at hd
    by_cases hp : p a = true
    · rw [if_pos hp] at hd; exact ih hd
    · rw [if_neg hp] at hd
      cases hd
      simpa using hp

theorem dropAfterLastClose_eq_none_iff (cs : List Char) :
    dropAfterLastClose cs = none ↔ ∀ c ∈ cs, ¬ c = ')' := by
  unfold dropAfterLastClose
  cases hd : cs.reverse.dropWhile (fun c => !(c = ')')) with
  | nil =>
    constructor
    · intro _ c hc
      have := List.dropWhile_eq_nil_iff.mp hd c (List.mem_reverse.mpr hc)
      simpa using this
    · intro _; rfl
  | cons x t =>
    constructor
    · intro h; exact absurd h (by simp)
    · intro hall
      have hx : x ∈ cs.reverse.dropWhile (fun c => !(c = ')')) := by
        rw [hd]; exact List.mem_cons_self x t
      have hx2 : x ∈ cs :=
        List.mem_reverse.mp (List.Sublist.mem hx (List.dropWhile_sublist _))
      have hxc : x = ')' := by simpa using dropWhile_head_false hd
      exact absurd hxc (hall x hx2)

theorem reSearchParen_of_no_close {cs : List Char} (h : ∀ c ∈ cs, ¬ c = ')') :
    reSearchParen cs = none := by
  induction cs with
  | nil => rfl
  | cons c cs ih =>
    have hcs : ∀ x ∈ cs, ¬ x = ')' := fun x hx => h x (List.mem_cons_of_mem _ hx)
    unfold reSearchParen
    by_cases hc : c = '('
    · rw [if_pos hc, (dropAfterLastClose_eq_none_iff cs).mpr hcs]
      exact ih hcs
    · rw [if_neg hc]
      exact ih hcs

/-- C2 counterexample: on a statement with parenthesized content after the
column list, the extracted body is not the substring up to the `)`
matching the first `(`: the greedy first match runs to the last `)` of
the whole text. -/
theorem extract_body_counterexample :
    extract_body c2Stmt = some (r"a INT) COMMENT (x") ∧
    matching_body c2Stmt = some (r"a INT") ∧
    extract_body c2Stmt ≠ matching_body c2Stmt :=
  ⟨by decide, by decide, by decide⟩

/-- C2 amended: for every statement text, the body the parser extracts is
the substring between the first `(` and the last `)` of the whole text
(none when no such span exists); it is the `)` matching the first `(`
only when no later `)` follows, which the counterexample above violates. -/
theorem extract_body_greedy_span (cs : List Char) :
    reSearchParen cs = firstOpenLastClose cs := by
  induction cs with
  | nil => rfl
  | cons c cs ih =>
    by_cases hc : c = '('
    · subst hc
      cases hd : dropAfterLastClose cs with
      | some g =>
        unfold reSearchParen firstOpenLastClose
        simp [List.dropWhile_cons, hd]
      | none =>
        unfold reSearchParen firstOpenLastClose
        simp [List.dropWhile_cons, hd]
        exact reSearchParen_of_no_close ((dropAfterLastClose_eq_none_iff cs).mp hd)
    · unfold reSearchParen
      rw [if_neg hc, ih]
      unfold firstOpenLastClose
      rw [List.dropWhile_cons]
      simp [hc]

theorem part_contrib_pk_component (p : String) :
    (part_contrib p).2.1 = pkClaimContrib p := by
  unfold part_contrib pkClaimContrib
  by_cases h1 : isPkClauseL (pyStripL p.data) = true
  · simp only [h1, if_true]
    cases searchPkParen (pyStripL p.data) <;> rfl
  · by_cases h2 : isFkClauseL (pyStripL p.data) = true
    · simp only [h1, h2, Bool.true_or, if_true, Bool.false_eq_true, if_false]
      cases parse_foreign_key (String.mk (pyStripL p.data)) <;> rfl
    · by_cases h3 : isConstraintClauseL (pyStripL p.data) = true
      · simp only [h1, h2, h3, Bool.false_or, if_true, Bool.false_eq_true, if_false]
        cases parse_foreign_key (String.mk (pyStripL p.data)) <;> rfl
      · simp only [h1, h2, h3, Bool.or_self, Bool.false_eq_true, if_false]
        cases hcol : parse_column_definition (String.mk (pyStripL p.data)) with
        | none => rfl
        | some col => cases col.is_primary_key <;> rfl

/-- C3: the primary-key list a parsed CREATE TABLE statement accumulates is
the in-order, fragment-by-fragment concatenation of the quote-stripped
column lists of standalone PRIMARY KEY clauses and the names of columns
flagged inline-primary-key (first conjunct, over every fragment list);
`PRIMARY KEY (a, b)` contributes exactly a then b, several standalone
clauses all accumulate, and an inline flag plus a standalone clause naming
the same column produce a duplicate — nothing is deduplicated (remaining
conjuncts). -/
theorem processParts_primary_key_concat :
    (∀ parts : List String,
      (processParts parts).2.1 = parts.flatMap pkClaimContrib) ∧
    (processParts [r"PRIMARY KEY (a, b)"]).2.1 = [r"a", r"b"] ∧
    (processParts [r"PRIMARY KEY (a)", r"PRIMARY KEY (b)"]).2.1 = [r"a", r"b"] ∧
    (processParts [r"x INT PRIMARY KEY", r"PRIMARY KEY (x)"]).2.1 = [r"x", r"x"] := by
  refine ⟨fun parts => ?_, by decide, by decide, by decide⟩
  induction parts with
  | nil => rfl
  | cons p ps ih =>
    simp only [processParts, List.flatMap_cons, ih, part_contrib_pk_component]

theorem build_column_ok_iff (c : RColumn) :
    (∃ col, build_column c = Except.ok col) ↔ c.name ≠ none ∧ c.type ≠ none := by
  obtain ⟨nm, ty, co⟩ := c
  cases nm <;> cases ty <;> simp [build_column]

theorem build_columns_ok_iff (l : List RColumn) :
    (∃ cs, build_columns l = Except.ok cs) ↔
      ∀ c ∈ l, c.name ≠ none ∧ c.type ≠ none := by
  induction l with
  | nil => simp [build_columns]
  | cons c cs ih =>
    simp only [build_columns, List.mem_cons]
    constructor
    · rintro ⟨res, hres⟩
      cases hc : build_column c with
      | error e => rw [hc] at hres; exact absurd hres (by simp [bind, Except.bind])
      | ok col =>
        cases hcs : build_columns cs with
        | error e =>
          rw [hc, hcs] at hres
          exact absurd hres (by simp [bind, Except.bind])
        | ok rest =>
          have h1 := (build_column_ok_iff c).mp ⟨col, hc⟩
          have h2 := ih.mp ⟨rest, hcs⟩
          intro x hx
          rcases hx with rfl | hx
          · exact h1
          · exact h2 x hx
    · intro hall
      obtain ⟨col, hc⟩ := (build_column_ok_iff c).mpr (hall c (Or.inl rfl))
      obtain ⟨rest, hcs⟩ := ih.mpr (fun x hx => hall x (Or.inr hx))
      exact ⟨col :: rest, by simp [hc, hcs, bind, Except.bind]⟩

theorem build_fk_ok_iff (f : RFk) :
    (∃ fk, build_fk f = Except.ok fk) ↔
      f.name ≠ none ∧ f.columns ≠ none ∧ f.ref_table ≠ none ∧ f.ref_columns ≠ none := by
  obtain ⟨nm, cols, rt, rcols⟩ := f
  cases nm <;> cases cols <;> cases rt <;> cases rcols <;> simp [build_fk]

theorem build_fks_ok_iff (l : List RFk) :
    (∃ fks, build_fks l = Except.ok fks) ↔
      ∀ f ∈ l, f.name ≠ none ∧ f.columns ≠ none ∧ f.ref_table ≠ none ∧
        f.ref_columns ≠ none := by
  induction l with
  | nil => simp [build_fks]
  | cons f fs ih =>
    simp only [build_fks, List.mem_cons]
    constructor
    · rintro ⟨res, hres⟩
      cases hf : build_fk f with
      | error e => rw [hf] at hres; exact absurd hres (by simp [bind, Except.bind])
      | ok fk =>
        cases hfs : build_fks fs with
        | error e =>
          rw [hf, hfs] at hres
          exact absurd hres (by simp [bind, Except.bind])
        | ok rest =>
          have h1 := (build_fk_ok_iff f).mp ⟨fk, hf⟩
          have h2 := ih.mp ⟨rest, hfs⟩
          intro x hx
          rcases hx with rfl | hx
          · exact h1
          · exact h2 x hx
    · intro hall
      obtain ⟨fk, hf⟩ := (build_fk_ok_iff f).mpr (hall f (Or.inl rfl))
      obtain ⟨rest, hfs⟩ := ih.mpr (fun x hx => hall x (Or.inr hx))
      exact ⟨fk :: rest, by simp [hf, hfs, bind, Except.bind]⟩

/-- C4 counterexample: a raw record whose table name and every column
`name`/`type` key are present still makes the builder fail, because its
foreign-key entry is missing a required key — the claim's "only if" list
of required keys is too small. -/
theorem build_table_fk_key_counterexample :
    c4Bad.name = some (r"t") ∧
    (∀ c ∈ c4Bad.columns.getD [], c.name ≠ none ∧ c.type ≠ none) ∧
    build_table c4Bad = Except.error (keyErr (r"name")) :=
  ⟨rfl, by decide, by decide⟩

/-- C4 amended: the AST builder fails with a missing-field error exactly
when a required key is absent, where the required keys are the table's
`name`, each column entry's `name` and `type`, and additionally each
foreign-key entry's `name`, `columns`, `ref_table` and `ref_columns`; on
every raw record with all of those present it returns a table without
raising. -/
theorem build_table_missing_fields (t : RTable) :
    (∃ tb, build_table t = Except.ok tb) ↔ rtableComplete t := by
  unfold build_table rtableComplete
  constructor
  · rintro ⟨tb, htb⟩
    cases hc : build_columns (t.columns.getD []) with
    | error e => rw [hc] at htb; exact absurd htb (by simp [bind, Except.bind])
    | ok cols =>
      cases hf : build_fks (t.foreign_keys.getD []) with
      | error e =>
        rw [hc, hf] at htb
        exact absurd htb (by simp [bind, Except.bind])
      | ok fks =>
        rw [hc, hf] at htb
        cases hn : t.name with
        | none =>
          rw [hn] at htb
          exact absurd htb (by simp [bind, Except.bind])
        | some n =>
          exact ⟨by simp [hn], (build_columns_ok_iff _).mp ⟨cols, hc⟩,
            (build_fks_ok_iff _).mp ⟨fks, hf⟩⟩
  · rintro ⟨hn, hcols, hfks⟩
    obtain ⟨cols, hc⟩ := (build_columns_ok_iff _).mpr hcols
    obtain ⟨fks, hf⟩ := (build_fks_ok_iff _).mpr hfks
    cases hname : t.name with
    | none => exact absurd hname hn
    | some n =>
      exact ⟨⟨n, cols, t.primary_key.getD [], fks⟩,
        by simp [hc, hf, hname, bind, Except.bind]⟩

/-- C4 witness: a fully keyed raw record builds successfully. -/
theorem build_table_missing_fields_witness :
    ∃ tb, build_table c4Good = Except.ok tb :=
  (build_table_missing_fields c4Good).mpr (by decide)

theorem consHead_ne_nil (c : Char) (l : List (List Char)) : consHead c l ≠ [] := by
  cases l <;> simp [consHead]

theorem refSplitGo_ne_nil (cs : List Char) : ∀ d : Int, refSplitGo d cs ≠ [] := by
  induction cs with
  | nil => intro d; simp [refSplitGo]
  | cons c cs ih =>
    intro d
    unfold refSplitGo
    by_cases h : c = ',' ∧ d = 0
    · simp [h]
    · rw [if_neg h]
      split_ifs <;> exact consHead_ne_nil _ _

theorem prependHead_consHead (cur : List Char) (c : Char) (l : List (List Char)) :
    prependHead cur (consHead c l) = prependHead (cur ++ [c]) l := by
  cases l <;> simp [prependHead, consHead]

theorem prependHead_nil {l : List (List Char)} (h : l ≠ []) :
    prependHead [] l = l := by
  cases l with
  | nil => exact absurd rfl h
  | cons g gs => simp [prependHead]

theorem dropTrailingEmpty_cons (x : List Char) {l : List (List Char)}
    (h : l ≠ []) : dropTrailingEmpty (x :: l) = x :: dropTrailingEmpty l := by
  cases l with
  | nil => exact absurd rfl h
  | cons y ys => rfl

theorem sbcGo_eq_dropTrailingEmpty (cs : List Char) :
    ∀ (d : Int) (cur : List Char),
    sbcGo cur d cs = dropTrailingEmpty (prependHead cur (refSplitGo d cs)) := by
  induction cs with
  | nil =>
    intro d cur
    simp [sbcGo, refSplitGo, prependHead, dropTrailingEmpty]
  | cons c cs ih =>
    intro d cur
    by_cases h1 : c = '('
    · subst h1
      have e1 : sbcGo cur d ('(' :: cs) = sbcGo (cur ++ ['(']) (d + 1) cs := by
        simp [sbcGo]
      have e2 : refSplitGo d ('(' :: cs) = consHead '(' (refSplitGo (d + 1) cs) := by
        simp [refSplitGo]
      rw [e1, e2, prependHead_consHead]
      exact ih (d + 1) (cur ++ ['('])
    · by_cases h2 : c = ')'
      · subst h2
        have e1 : sbcGo cur d (')' :: cs) = sbcGo (cur ++ [')']) (d - 1) cs := by
          simp [sbcGo]
        have e2 : refSplitGo d (')' :: cs) = consHead ')' (refSplitGo (d - 1) cs) := by
          simp [refSplitGo]
        rw [e1, e2, prependHead_consHead]
        exact ih (d - 1) (cur ++ [')'])
      · by_cases h3 : c = ',' ∧ d = 0
        · obtain ⟨hc, hd⟩ := h3
          subst hc; subst hd
          have e1 : sbcGo cur 0 (',' :: cs) = cur :: sbcGo [] 0 cs := by
            simp [sbcGo]
          have e2 : refSplitGo 0 (',' :: cs) = [] :: refSplitGo 0 cs := by
            simp [refSplitGo]
          rw [e1, e2, ih 0 [], prependHead_nil (refSplitGo_ne_nil cs 0)]
          simp only [prependHead, List.nil_append]
          rw [dropTrailingEmpty_cons _ (refSplitGo_ne_nil cs 0)]
          simp
        · have e1 : sbcGo cur d (c :: cs) = sbcGo (cur ++ [c]) d cs := by
            simp [sbcGo, h1, h2, h3]
          have e2 : refSplitGo d (c :: cs) = consHead c (refSplitGo d cs) := by
            simp [refSplitGo, h1, h2, h3]
          rw [e1, e2, prependHead_consHead]
          exact ih d (cur ++ [c])

/-- C7 counterexample: on input `,` the one comma occurs at depth zero, so
the substrings it delimits are two empty strings, but the splitter
returns only one — the segment after a trailing depth-zero comma is never
emitted. -/
theorem split_by_comma_counterexample :
    ref_split (r",") = [r"", r""] ∧
    split_by_comma (r",") = [r""] ∧
    split_by_comma (r",") ≠ ref_split (r",") :=
  ⟨by decide, by decide, by decide⟩

/-- C7 amended: for every input the splitter returns the ordered substrings
delimited by the depth-zero commas (depth up on `(`, down on `)`, commas
inside nested parentheses never split, unbalanced input processed
silently), except that a trailing empty segment — after a final
depth-zero comma, or from empty input — is omitted. -/
theorem split_by_comma_as_ref_split (s : String) :
    split_by_comma s = (dropTrailingEmpty (refSplitGo 0 s.data)).map String.mk := by
  unfold split_by_comma
  rw [sbcGo_eq_dropTrailingEmpty, prependHead_nil (refSplitGo_ne_nil _ 0)]

end Reltools
